import Mathlib

/-!
Verification of the Financial-Coach live-audio session core.

Shallow embedding of the PCM codec (`src/utils/audio.ts`,
`src/unnamed/part_000`), the capture-pipeline accumulation buffer and the
session lifecycle of the two `LiveService` variants
(`src/services/liveService.ts` — script-processor variant A — and the
worklet variant B appended in `src/App.tsx`).

Samples are modelled as exact rationals (the scalings by 0x8000 are exact
in binary floating point and the quantisation claims are about exact
arithmetic); the JavaScript `DataView.setInt16` / `Int16Array` store via
truncation toward zero, modelled by `jsTrunc`.
-/

namespace FinancialCoach

/-- JavaScript ToInteger: truncation toward zero, as performed by
`DataView.setInt16` / assignment into an `Int16Array`. -/
def jsTrunc (q : ℚ) : ℤ := if 0 ≤ q then ⌊q⌋ else ⌈q⌉

/-- Clamp `Math.max(-1, Math.min(1, x))` from `float32ToInt16PCM`. -/
def clampSample (x : ℚ) : ℚ := max (-1) (min 1 x)

/-- One sample of `float32ToInt16PCM` (`src/utils/audio.ts:34-37`):
clamp to [-1,1], scale negatives by 0x8000 and non-negatives by 0x7FFF,
truncate to an integer. -/
def encodeSample (x : ℚ) : ℤ :=
  let s := clampSample x
  jsTrunc (if s < 0 then s * 0x8000 else s * 0x7FFF)

/-- Function `float32ToInt16PCM` on a whole buffer: one 16-bit value per sample. -/
def float32ToInt16PCM (xs : List ℚ) : List ℤ := xs.map encodeSample

/-- One sample of the decode in `pcmToAudioBuffer`
(`src/utils/audio.ts:58`): `dataInt16[i] / 32768.0`. -/
def decodeSample (n : ℤ) : ℚ := (n : ℚ) / 32768

/-- Mono decode of `pcmToAudioBuffer`: every 16-bit value divided by
32768. -/
def pcmToAudioBuffer (ns : List ℤ) : List ℚ := ns.map decodeSample

/-- Store `view.setInt16(i * 2, val, true)`: two bytes per sample, little
endian, twos-complement. -/
def int16ToLEBytes (n : ℤ) : List ℕ :=
  [((n % 65536) % 256).toNat, ((n % 65536) / 256).toNat]

/-- The output `ArrayBuffer` of `float32ToInt16PCM` as its byte list:
each encoded sample contributes exactly its two little-endian bytes at
offset `2*i`. -/
def pcmOutputBytes : List ℚ → List ℕ
  | [] => []
  | x :: rest => int16ToLEBytes (encodeSample x) ++ pcmOutputBytes rest

lemma clampSample_mem (x : ℚ) : -1 ≤ clampSample x ∧ clampSample x ≤ 1 := by
  constructor
  · exact le_max_left _ _
  · by_cases h : (1 : ℚ) ≤ x
    · simp [clampSample, min_def, h]
    · have hx : min 1 x = x := min_eq_right (le_of_not_le h)
      simp [clampSample, hx]
      exact le_of_not_le h

lemma clampSample_eq_self {x : ℚ} (h1 : -1 ≤ x) (h2 : x ≤ 1) :
    clampSample x = x := by
  unfold clampSample
  rw [min_eq_right h2, max_eq_right h1]

lemma encodeSample_range (x : ℚ) :
    -32768 ≤ encodeSample x ∧ encodeSample x ≤ 32767 := by
  obtain ⟨hlo, hhi⟩ := clampSample_mem x
  unfold encodeSample jsTrunc
  set s := clampSample x with hs
  by_cases hneg : s < 0
  · have hy0 : ¬ (0 ≤ s * 0x8000) := by
      simp only [not_le]
      have : s * 0x8000 < 0 * 0x8000 := by
        apply mul_lt_mul_of_pos_right hneg
        norm_num
      simpa using this
    simp only [hneg, if_true, hy0, if_false]
    constructor
    · have h1 : (-32768 : ℚ) ≤ s * 0x8000 := by nlinarith
      have := Int.le_ceil (s * 0x8000)
      have h2 : ((-32768 : ℤ) : ℚ) ≤ ⌈s * 0x8000⌉ := by
        calc ((-32768 : ℤ) : ℚ) = (-32768 : ℚ) := by norm_num
        _ ≤ s * 0x8000 := h1
        _ ≤ ⌈s * 0x8000⌉ := this
      exact_mod_cast h2
    · have h1 : s * 0x8000 ≤ 0 := by nlinarith
      have h2 : ⌈s * 0x8000⌉ ≤ ⌈(0 : ℚ)⌉ := Int.ceil_mono h1
      simp at h2
      omega
  · have hpos : 0 ≤ s := le_of_not_lt hneg
    have hy0 : 0 ≤ s * 0x7FFF := by positivity
    simp only [hneg, if_false, hy0, if_true]
    constructor
    · have h2 : ⌊(0 : ℚ)⌋ ≤ ⌊s * 0x7FFF⌋ := Int.floor_mono hy0
      simp at h2
      omega
    · have h1 : s * 0x7FFF ≤ 32767 := by nlinarith
      have h2 : ⌊s * 0x7FFF⌋ ≤ ⌊(32767 : ℚ)⌋ := Int.floor_mono h1
      simpa using h2

lemma pcmOutputBytes_length (xs : List ℚ) :
    (pcmOutputBytes xs).length = 2 * xs.length := by
  induction xs with
  | nil => rfl
  | cons x rest ih =>
    simp [pcmOutputBytes, int16ToLEBytes, ih]
    ring

lemma roundtrip_neg (x : ℚ) (h1 : -1 ≤ x) (hx : x < 0) :
    |decodeSample (encodeSample x) - x| ≤ 1 / 32768 := by
  have hc : clampSample x = x := clampSample_eq_self h1 (by linarith)
  have hy : ¬ (0 ≤ x * 0x8000) := by
    simp only [not_le]; nlinarith
  unfold encodeSample jsTrunc decodeSample
  rw [hc]
  simp only [hx, if_true, hy, if_false]
  have hceil1 : (x * 0x8000 : ℚ) ≤ ⌈x * 0x8000⌉ := Int.le_ceil _
  have hceil2 : (⌈x * 0x8000⌉ : ℚ) < x * 0x8000 + 1 := Int.ceil_lt_add_one _
  rw [abs_le]
  constructor <;> linarith

lemma roundtrip_nonneg (x : ℚ) (hx : 0 ≤ x) (h2 : x ≤ 1) :
    |decodeSample (encodeSample x) - x| ≤ 2 / 32768 := by
  have hc : clampSample x = x := clampSample_eq_self (by linarith) h2
  have hneg : ¬ (x < 0) := not_lt.mpr hx
  have hy : (0 : ℚ) ≤ x * 0x7FFF := by positivity
  unfold encodeSample jsTrunc decodeSample
  rw [hc]
  simp only [hneg, if_false, hy, if_true]
  have hf1 : ((⌊x * 0x7FFF⌋ : ℚ)) ≤ x * 0x7FFF := Int.floor_le _
  have hf2 : (x * 0x7FFF : ℚ) < ⌊x * 0x7FFF⌋ + 1 := Int.lt_floor_add_one _
  rw [abs_le]
  constructor <;> nlinarith

lemma encodeSample_one : encodeSample 1 = 32767 := by
  norm_num [encodeSample, clampSample, jsTrunc]

lemma encodeSample_negOne : encodeSample (-1) = -32768 := by
  norm_num [encodeSample, clampSample, jsTrunc]
  rw [show ((-32768 : ℚ)) = ((-32768 : ℤ) : ℚ) by norm_num, Int.ceil_intCast]

/-- C3 counterexample: the claimed one-quantization-step round-trip bound
fails. At the in-range sample `x = 65533/65534` (≈ 0.9999847),
`float32ToInt16PCM` scales by 0x7FFF and truncates to 32766, but
`pcmToAudioBuffer` decodes by dividing by 32768, leaving an error
strictly greater than `1/32768`. -/
theorem claim_C3_counterexample :
    ¬ (|decodeSample (encodeSample (65533 / 65534)) - 65533 / 65534| ≤ 1 / 32768) := by
  have h1 : encodeSample (65533 / 65534) = 32766 := by
    norm_num [encodeSample, clampSample, jsTrunc]
  rw [h1]
  rw [show |decodeSample 32766 - 65533 / 65534| = 65533 / 65534 - decodeSample 32766 by
    rw [abs_of_neg] <;> norm_num [decodeSample]]
  norm_num [decodeSample]

/-- C3 (amended): encoding 1.0 gives the maximum 16-bit value 32767 and
encoding -1.0 gives the minimum -32768, every encoded value stays in
[-32768, 32767] (no overflow), and the decode error is at most one
quantization step (1/32768) for samples in [-1, 0) but only at most two
quantization steps (2/32768) for samples in [0, 1] — the positive half is
scaled by 0x7FFF while the decoder divides by 0x8000. -/
theorem claim_C3_amended :
    encodeSample 1 = 32767 ∧ encodeSample (-1) = -32768 ∧
    (∀ x : ℚ, -32768 ≤ encodeSample x ∧ encodeSample x ≤ 32767) ∧
    (∀ x : ℚ, -1 ≤ x → x < 0 →
      |decodeSample (encodeSample x) - x| ≤ 1 / 32768) ∧
    (∀ x : ℚ, 0 ≤ x → x ≤ 1 →
      |decodeSample (encodeSample x) - x| ≤ 2 / 32768) :=
  ⟨encodeSample_one, encodeSample_negOne, encodeSample_range,
   roundtrip_neg, roundtrip_nonneg⟩

/-- Witness for the amended C3 bound at the concrete samples -1/2 and
1/2. -/
theorem claim_C3_witness :
    ((-1 : ℚ) ≤ -1 / 2 ∧ (-1 / 2 : ℚ) < 0 ∧
      |decodeSample (encodeSample (-1 / 2)) - (-1 / 2)| ≤ 1 / 32768) ∧
    ((0 : ℚ) ≤ 1 / 2 ∧ (1 / 2 : ℚ) ≤ 1 ∧
      |decodeSample (encodeSample (1 / 2)) - 1 / 2| ≤ 2 / 32768) :=
  ⟨⟨by norm_num, by norm_num,
    claim_C3_amended.2.2.2.1 (-1 / 2) (by norm_num) (by norm_num)⟩,
   ⟨by norm_num, by norm_num,
    claim_C3_amended.2.2.2.2 (1 / 2) (by norm_num) (by norm_num)⟩⟩

/-- Fixed capacity of the capture accumulation buffer
(`const BUFFER_SIZE = 4096` in the worklet variant). -/
def BUFFER_SIZE : Nat := 4096

/-- Method `LiveService.processInputAudio` (worklet variant, `src/App.tsx`):
the while-loop that copies an incoming chunk into the fixed-capacity
accumulation buffer, flushing the buffer as one block whenever it fills
and continuing with the remainder of the chunk.  The buffer is modelled
as the list of samples currently held (`audioBufferIdx` = its length);
the invariant `audioBufferIdx < BUFFER_SIZE`, which holds initially
(index 0) and is restored by every flush, is carried as a hypothesis.
Returns the final partial buffer and the flushed blocks in emission
order. -/
def processInputAudio {α : Type} (acc chunk : List α)
    (_hacc : acc.length < BUFFER_SIZE) : List α × List (List α) :=
  if hc : chunk.isEmpty then (acc, [])
  else
    let space := BUFFER_SIZE - acc.length
    let copyLen := min space chunk.length
    let acc2 := acc ++ chunk.take copyLen
    let rest := chunk.drop copyLen
    if hflush : BUFFER_SIZE ≤ acc2.length then
      let r := processInputAudio ([] : List α) rest (by simp [BUFFER_SIZE])
      (r.1, acc2 :: r.2)
    else
      processInputAudio acc2 rest (by omega)
termination_by chunk.length
decreasing_by
  all_goals
    simp only [List.length_drop, rest, copyLen, space]
    have hch : chunk.length ≠ 0 := by
      simpa [List.isEmpty_iff, List.length_eq_zero] using hc
    omega

lemma processInputAudio_spec_aux {α : Type} :
    ∀ (n : ℕ) (acc chunk : List α) (hacc : acc.length < BUFFER_SIZE),
    chunk.length ≤ n →
    (processInputAudio acc chunk hacc).1.length < BUFFER_SIZE ∧
    (processInputAudio acc chunk hacc).2.flatten ++ (processInputAudio acc chunk hacc).1
      = acc ++ chunk ∧
    ∀ b ∈ (processInputAudio acc chunk hacc).2, b.length = BUFFER_SIZE := by
  intro n
  induction n with
  | zero =>
    intro acc chunk hacc hn
    have hch : chunk = [] := List.length_eq_zero.mp (Nat.le_zero.mp hn)
    subst hch
    rw [processInputAudio]
    simp [hacc]
  | succ n ih =>
    intro acc chunk hacc hn
    by_cases hc : chunk.isEmpty
    · have hch : chunk = [] := List.isEmpty_iff.mp hc
      subst hch
      rw [processInputAudio]
      simp [hacc]
    · have hch : chunk.length ≠ 0 := by
        simpa [List.isEmpty_iff, List.length_eq_zero] using hc
      rw [processInputAudio, dif_neg hc]
      set copyLen := min (BUFFER_SIZE - acc.length) chunk.length with hcl
      have hcl1 : 1 ≤ copyLen := by
        rw [hcl]
        omega
      have hrest : (chunk.drop copyLen).length ≤ n := by
        simp only [List.length_drop]
        omega
      by_cases hflush : BUFFER_SIZE ≤ (acc ++ chunk.take copyLen).length
      · rw [dif_pos hflush]
        obtain ⟨ha, hb, hcb⟩ := ih ([] : List α) (chunk.drop copyLen)
          (by simp [BUFFER_SIZE]) hrest
        have hlen : (acc ++ chunk.take copyLen).length = BUFFER_SIZE := by
          simp only [List.length_append, List.length_take] at hflush ⊢
          omega
        refine ⟨ha, ?_, ?_⟩
        · simp only [List.flatten_cons, List.append_assoc]
          rw [hb]
          simp [List.append_assoc]
        · intro b hb2
          rcases List.mem_cons.mp hb2 with rfl | hb3
          · exact hlen
          · exact hcb b hb3
      · rw [dif_neg hflush]
        obtain ⟨ha, hb, hcb⟩ := ih (acc ++ chunk.take copyLen) (chunk.drop copyLen)
          (by simp only [List.length_append, List.length_take] at hflush ⊢; omega) hrest
        refine ⟨ha, ?_, hcb⟩
        rw [hb]
        simp [List.append_assoc]

lemma processInputAudio_acc_lt {α : Type} (acc chunk : List α)
    (hacc : acc.length < BUFFER_SIZE) :
    (processInputAudio acc chunk hacc).1.length < BUFFER_SIZE :=
  (processInputAudio_spec_aux chunk.length acc chunk hacc le_rfl).1

/-- Feeding a sequence of captured AudioFrames through the accumulation
buffer, one `processInputAudio` call per frame (the worklet
`port.onmessage` delivers frames in arrival order), starting from the
empty buffer.  Returns the final partial buffer and all flushed blocks in
emission order. -/
def processFramesAux {α : Type} :
    (acc : List α) → acc.length < BUFFER_SIZE → List (List α) →
    List α × List (List α)
  | acc, _, [] => (acc, [])
  | acc, h, f :: fs =>
    let r := processInputAudio acc f h
    let r2 := processFramesAux r.1 (processInputAudio_acc_lt acc f h) fs
    (r2.1, r.2 ++ r2.2)

/-- The capture pipeline on a whole frame sequence, from the initial
empty buffer (`audioBufferIdx = 0`). -/
def processFrames {α : Type} (frames : List (List α)) :
    List α × List (List α) :=
  processFramesAux ([] : List α) (by simp [BUFFER_SIZE]) frames

lemma processFramesAux_spec {α : Type} :
    ∀ (fs : List (List α)) (acc : List α) (h : acc.length < BUFFER_SIZE),
    (processFramesAux acc h fs).2.flatten ++ (processFramesAux acc h fs).1
      = acc ++ fs.flatten ∧
    ∀ b ∈ (processFramesAux acc h fs).2, b.length = BUFFER_SIZE := by
  intro fs
  induction fs with
  | nil =>
    intro acc h
    simp [processFramesAux]
  | cons f fs ih =>
    intro acc h
    obtain ⟨_, hb, hcb⟩ :=
      processInputAudio_spec_aux f.length acc f h le_rfl
    obtain ⟨ihb, ihc⟩ :=
      ih (processInputAudio acc f h).1 (processInputAudio_acc_lt acc f h)
    simp only [processFramesAux]
    refine ⟨?_, ?_⟩
    · rw [List.flatten_append, List.append_assoc, ihb, ← List.append_assoc, hb]
      simp [List.append_assoc]
    · intro b hb2
      rcases List.mem_append.mp hb2 with hb3 | hb3
      · exact hcb b hb3
      · exact ihc b hb3

/-- C2: for every sequence of AudioFrames fed into the accumulation
buffer, the flushed blocks followed by the final partial buffer are
exactly the concatenation of the input frames (no sample dropped,
duplicated or reordered when a frame splits across a buffer boundary);
hence the total emitted sample count plus the final partial count equals
the total input count, and every flushed block holds exactly
`BUFFER_SIZE = 4096` samples. -/
theorem claim_C2_buffer_conservation {α : Type} (frames : List (List α)) :
    (processFrames frames).2.flatten ++ (processFrames frames).1
      = frames.flatten ∧
    ((processFrames frames).2.map List.length).sum +
      (processFrames frames).1.length = (frames.map List.length).sum ∧
    ∀ b ∈ (processFrames frames).2, b.length = BUFFER_SIZE := by
  obtain ⟨h1, h2⟩ := processFramesAux_spec frames ([] : List α)
    (by simp [BUFFER_SIZE])
  rw [List.nil_append] at h1
  refine ⟨h1, ?_, h2⟩
  have := congrArg List.length h1
  simpa [List.length_flatten] using this

/-- C10: `float32ToInt16PCM` is total and overflow-safe on any input:
it emits exactly one 16-bit value per input sample (two bytes per sample
in the output buffer), and every emitted value lies in [-32768, 32767]
because each sample is clamped into [-1, 1] before scaling. -/
theorem claim_C10_encode_safe (xs : List ℚ) :
    (float32ToInt16PCM xs).length = xs.length ∧
    (pcmOutputBytes xs).length = 2 * xs.length ∧
    ∀ v ∈ float32ToInt16PCM xs, -32768 ≤ v ∧ v ≤ 32767 := by
  refine ⟨List.length_map _ _, pcmOutputBytes_length xs, ?_⟩
  intro v hv
  rcases List.mem_map.mp hv with ⟨x, _, rfl⟩
  exact encodeSample_range x

/-- Playback output rate (`OUTPUT_SAMPLE_RATE = 24000`). -/
def OUTPUT_SAMPLE_RATE : ℚ := 24000

/-- The playback-scheduling step of `handleMessage`
(`src/services/liveService.ts:309-316`, identically in the worklet
variant): `nextStartTime = Math.max(currentTime, nextStartTime)`;
`source.start(nextStartTime)`; `nextStartTime += audioBuffer.duration`.
A decoded block of `frameCount` mono samples has duration
`frameCount / OUTPUT_SAMPLE_RATE` seconds.  Returns the scheduled start
time and the updated next-start cursor. -/
def scheduleBlock (currentTime nextStartTime : ℚ) (frameCount : ℕ) : ℚ × ℚ :=
  let t := max currentTime nextStartTime
  (t, t + frameCount / OUTPUT_SAMPLE_RATE)

/-- C4: the next-start cursor is monotonically non-decreasing across
every inbound audio message, and three blocks of sample counts n1, n2,
n3 arriving with the cursor initially 0 and the output clock always at
most the cursor are scheduled back-to-back at t1 = 0, t2 = d1,
t3 = d1 + d2 — non-decreasing and non-overlapping. -/
theorem claim_C4_playback_scheduling :
    (∀ (c cursor : ℚ) (n : ℕ), cursor ≤ (scheduleBlock c cursor n).2) ∧
    (∀ (c1 c2 c3 : ℚ) (n1 n2 n3 : ℕ),
      c1 ≤ 0 →
      c2 ≤ (n1 : ℚ) / OUTPUT_SAMPLE_RATE →
      c3 ≤ (n1 : ℚ) / OUTPUT_SAMPLE_RATE + (n2 : ℚ) / OUTPUT_SAMPLE_RATE →
      (scheduleBlock c1 0 n1).1 = 0 ∧
      (scheduleBlock c2 (scheduleBlock c1 0 n1).2 n2).1
        = (n1 : ℚ) / OUTPUT_SAMPLE_RATE ∧
      (scheduleBlock c3 (scheduleBlock c2 (scheduleBlock c1 0 n1).2 n2).2 n3).1
        = (n1 : ℚ) / OUTPUT_SAMPLE_RATE + (n2 : ℚ) / OUTPUT_SAMPLE_RATE ∧
      (scheduleBlock c1 0 n1).1 + (n1 : ℚ) / OUTPUT_SAMPLE_RATE
        ≤ (scheduleBlock c2 (scheduleBlock c1 0 n1).2 n2).1 ∧
      (scheduleBlock c2 (scheduleBlock c1 0 n1).2 n2).1
          + (n2 : ℚ) / OUTPUT_SAMPLE_RATE
        ≤ (scheduleBlock c3 (scheduleBlock c2 (scheduleBlock c1 0 n1).2 n2).2 n3).1) := by
  have hd : ∀ n : ℕ, (0 : ℚ) ≤ (n : ℚ) / OUTPUT_SAMPLE_RATE := by
    intro n
    unfold OUTPUT_SAMPLE_RATE
    positivity
  have hfst : ∀ (c cur : ℚ) (n : ℕ), (scheduleBlock c cur n).1 = max c cur :=
    fun _ _ _ => rfl
  have hsnd : ∀ (c cur : ℚ) (n : ℕ),
      (scheduleBlock c cur n).2 = max c cur + (n : ℚ) / OUTPUT_SAMPLE_RATE :=
    fun _ _ _ => rfl
  constructor
  · intro c cursor n
    rw [hsnd]
    have h1 : cursor ≤ max c cursor := le_max_right _ _
    have h2 := hd n
    linarith
  · intro c1 c2 c3 n1 n2 n3 h1 h2 h3
    have hcur1 : (scheduleBlock c1 0 n1).2 = (n1 : ℚ) / OUTPUT_SAMPLE_RATE := by
      rw [hsnd, max_eq_right h1, zero_add]
    have ht1 : (scheduleBlock c1 0 n1).1 = 0 := by
      rw [hfst]
      exact max_eq_right h1
    have ht2 : (scheduleBlock c2 (scheduleBlock c1 0 n1).2 n2).1
        = (n1 : ℚ) / OUTPUT_SAMPLE_RATE := by
      rw [hfst, hcur1, max_eq_right h2]
    have hcur2 : (scheduleBlock c2 (scheduleBlock c1 0 n1).2 n2).2
        = (n1 : ℚ) / OUTPUT_SAMPLE_RATE + (n2 : ℚ) / OUTPUT_SAMPLE_RATE := by
      rw [hsnd, hcur1, max_eq_right h2]
    have ht3 : (scheduleBlock c3 (scheduleBlock c2 (scheduleBlock c1 0 n1).2 n2).2 n3).1
        = (n1 : ℚ) / OUTPUT_SAMPLE_RATE + (n2 : ℚ) / OUTPUT_SAMPLE_RATE := by
      rw [hfst, hcur2, max_eq_right h3]
    refine ⟨ht1, ht2, ht3, ?_, ?_⟩
    · rw [ht1, ht2, zero_add]
    · rw [ht2, ht3]

/-- Witness for C4 at concrete inputs: clocks 0, 1/2, 1 and blocks of
24000, 12000 and 6000 samples (durations 1, 1/2, 1/4 s). -/
theorem claim_C4_witness :
    (0 : ℚ) ≤ (scheduleBlock 7 0 24000).2 ∧
    ((0 : ℚ) ≤ 0 ∧
      (1 / 2 : ℚ) ≤ (24000 : ℕ) / OUTPUT_SAMPLE_RATE ∧
      (1 : ℚ) ≤ (24000 : ℕ) / OUTPUT_SAMPLE_RATE
        + (12000 : ℕ) / OUTPUT_SAMPLE_RATE ∧
      (scheduleBlock 0 0 24000).1 = 0 ∧
      (scheduleBlock (1 / 2) (scheduleBlock 0 0 24000).2 12000).1
        = (24000 : ℕ) / OUTPUT_SAMPLE_RATE) := by
  have h1 : (0 : ℚ) ≤ 0 := le_refl 0
  have h2 : (1 / 2 : ℚ) ≤ ((24000 : ℕ) : ℚ) / OUTPUT_SAMPLE_RATE := by
    norm_num [OUTPUT_SAMPLE_RATE]
  have h3 : (1 : ℚ) ≤ ((24000 : ℕ) : ℚ) / OUTPUT_SAMPLE_RATE
      + ((12000 : ℕ) : ℚ) / OUTPUT_SAMPLE_RATE := by
    norm_num [OUTPUT_SAMPLE_RATE]
  have hmain := claim_C4_playback_scheduling.2 0 (1 / 2) 1 24000 12000 6000 h1 h2 h3
  have hmono := claim_C4_playback_scheduling.1 7 0 24000
  exact ⟨hmono, h1, h2, h3, hmain.1, hmain.2.1⟩

/-- The log messages the session core emits (`onLog` payloads), one
constructor per distinct `message` constant of the two variants. -/
inductive LogMsg
  | audioInit      -- the `Initializing audio context` entry
  | connectingApi  -- the `Connecting to Gemini Live API` entry
  | ready          -- the `Coach is ready. Listening` entry
  | disconnected   -- the `Disconnected.` entry
  | connFailed     -- the `Connection failed` entry
  | sessionEnded   -- the `Session ended.` entry
  | apiError       -- the `API Error` entry
  | requestingData -- the `Coach requesting data` entry
  | toolAccess     -- tool-category entries
  deriving DecidableEq, BEq

/-- Mutable fields of the script-processor variant `LiveService`
(`src/services/liveService.ts:66-81`).  Nullable handles are modelled by
a Bool recording whether the handle is present; `logs` and
`statusEvents` record the emissions to `onLog` / `onStatusChange` in
order. -/
structure StateA where
  inputCtx : Bool
  outputCtx : Bool
  mediaStream : Bool
  processor : Bool
  source : Bool
  nextStartTime : ℚ
  isConnected : Bool
  sessionPromise : Bool
  logs : List LogMsg
  statusEvents : List Bool
  sentChunks : Nat
  deriving DecidableEq

/-- Method `LiveService.disconnect` of the script-processor variant
(`src/services/liveService.ts:158-207`): return immediately when neither
connected nor holding a session promise; otherwise stop the processor,
source and media stream, close both audio contexts, clear the connected
flag, emit one status change and one terminal `Disconnected.` log entry,
and null the session promise. -/
def disconnectA (s : StateA) : StateA :=
  if !s.isConnected && !s.sessionPromise then s
  else
    { s with
      processor := false
      source := false
      mediaStream := false
      inputCtx := false
      outputCtx := false
      isConnected := false
      sessionPromise := false
      logs := s.logs ++ [LogMsg.disconnected]
      statusEvents := s.statusEvents ++ [false] }

/-- Result of the asynchronous acquisition steps inside `connect()`:
either every await resolves, or one of them rejects and control reaches
the catch block. -/
inductive ConnectOutcome
  | success
  | failure
  deriving DecidableEq

/-- Method `LiveService.connect` of the script-processor variant
(`src/services/liveService.ts:90-156`): no-op only when `isConnected` is
already true; otherwise log, create the input context, acquire the
microphone, create the output context, log again, start the Live API
connection (setting `sessionPromise`), and on failure log
`Connection failed` and run `disconnect()`.  The `isConnected` flag is
only set later by the `onopen` callback (`handleOpenA`). -/
def connectA (s : StateA) (o : ConnectOutcome) : StateA :=
  if s.isConnected then s
  else
    let s1 := { s with
      logs := s.logs ++ [LogMsg.audioInit]
      inputCtx := true
      mediaStream := true
      outputCtx := true }
    let s2 := { s1 with
      logs := s1.logs ++ [LogMsg.connectingApi]
      sessionPromise := true }
    match o with
    | .success => s2
    | .failure => disconnectA { s2 with logs := s2.logs ++ [LogMsg.connFailed] }

/-- The `onopen` callback of the script-processor variant
(`src/services/liveService.ts:209-214`): set the connected flag, emit
status and the ready log entry, and start audio streaming (creating the
source node and script processor). -/
def handleOpenA (s : StateA) : StateA :=
  { s with
    isConnected := true
    statusEvents := s.statusEvents ++ [true]
    logs := s.logs ++ [LogMsg.ready]
    source := true
    processor := true }

/-- Mutable fields of the worklet variant `LiveService`
(`src/App.tsx`, second document, lines 231-248 of that file). -/
structure StateB where
  inputCtx : Bool
  outputCtx : Bool
  mediaStream : Bool
  workletNode : Bool
  source : Bool
  nextStartTime : ℚ
  isConnected : Bool
  currentSession : Bool
  logs : List LogMsg
  statusEvents : List Bool
  warnCount : Nat
  sentChunks : Nat
  deriving DecidableEq

/-- Method `LiveService.disconnect` of the worklet variant (`src/App.tsx`,
worklet document): unconditionally clear the connected flag and cached
session, emit a status change, release the worklet node, source and
media stream, close both contexts, and emit a `Disconnected.` log entry
— there is no already-torn-down guard. -/
def disconnectB (s : StateB) : StateB :=
  { s with
    isConnected := false
    currentSession := false
    statusEvents := s.statusEvents ++ [false]
    workletNode := false
    source := false
    mediaStream := false
    inputCtx := false
    outputCtx := false
    logs := s.logs ++ [LogMsg.disconnected] }

/-- Method `LiveService.connect` of the worklet variant (`src/App.tsx`, worklet
document): no-op when `isConnected` is true; otherwise the flag is set
to true at the very start of the call (so it covers the whole Connecting
phase), a status change is emitted, contexts and the microphone are
acquired, and on success the resolved session is adopted (after
re-checking the flag) and streaming starts; on failure
`handleConnectionError` logs and disconnects. -/
def connectB (s : StateB) (o : ConnectOutcome) : StateB :=
  if s.isConnected then s
  else
    let s0 := { s with
      isConnected := true
      statusEvents := s.statusEvents ++ [true] }
    let s1 := { s0 with
      logs := s0.logs ++ [LogMsg.audioInit]
      inputCtx := true
      outputCtx := true
      mediaStream := true }
    let s2 := { s1 with logs := s1.logs ++ [LogMsg.connectingApi] }
    match o with
    | .success =>
      -- line 308 re-check: isConnected is still true in this call
      { s2 with currentSession := true, workletNode := true, source := true }
    | .failure =>
      disconnectB { s2 with logs := s2.logs ++ [LogMsg.connFailed] }

/-- A state of the worklet variant as it stands right after a successful
`connect()` (connected, all handles live, no log backlog). -/
def connectedB : StateB :=
  { inputCtx := true
    outputCtx := true
    mediaStream := true
    workletNode := true
    source := true
    nextStartTime := 0
    isConnected := true
    currentSession := true
    logs := []
    statusEvents := [true]
    warnCount := 0
    sentChunks := 0 }

/-- C5 counterexample: in the worklet variant, `disconnect()` has no
already-torn-down guard, so calling it twice from a connected state
emits the terminal `Disconnected.` log entry twice, not once as
claimed. -/
theorem claim_C5_counterexample :
    ((disconnectB (disconnectB connectedB)).logs.count LogMsg.disconnected = 2) ∧
    ¬ ((disconnectB (disconnectB connectedB)).logs.count LogMsg.disconnected = 1) := by
  decide

/-- C5 (amended): in the script-processor variant, `disconnect()` is
fully idempotent — the second call observes the cleared flags and
returns without doing anything, so teardown and the terminal log happen
once.  In the worklet variant the second call releases no further
resource (everything is already cleared) but unconditionally emits one
more status change and one more `Disconnected.` log entry. -/
theorem claim_C5_amended :
    (∀ s : StateA, disconnectA (disconnectA s) = disconnectA s) ∧
    (∀ s : StateB, disconnectB (disconnectB s) =
      { disconnectB s with
        logs := (disconnectB s).logs ++ [LogMsg.disconnected]
        statusEvents := (disconnectB s).statusEvents ++ [false] }) := by
  constructor
  · intro s
    by_cases h1 : s.isConnected
    · simp [disconnectA, h1]
    · by_cases h2 : s.sessionPromise
      · simp [disconnectA, h1, h2]
      · simp [disconnectA, h1, h2]
  · intro s
    rfl

/-- The script-processor variant state midway through `connect()`:
contexts and microphone acquired, session promise issued, but `onopen`
has not fired yet — the session is Connecting, `isConnected` is still
false. -/
def connectingA : StateA :=
  { inputCtx := true
    outputCtx := true
    mediaStream := true
    processor := false
    source := false
    nextStartTime := 0
    isConnected := false
    sessionPromise := true
    logs := [LogMsg.audioInit, LogMsg.connectingApi]
    statusEvents := []
    sentChunks := 0 }

/-- C6 counterexample: in the script-processor variant the guard at the
top of `connect()` checks only `isConnected`, which is still false while
the session is Connecting, so a second `connect()` issued during
Connecting is not a no-op: it proceeds and changes the state (appending
new log entries and issuing a second connection attempt). -/
theorem claim_C6_counterexample :
    connectingA.isConnected = false ∧
    connectingA.sessionPromise = true ∧
    connectA connectingA ConnectOutcome.success ≠ connectingA := by
  refine ⟨rfl, rfl, ?_⟩
  intro h
  have := congrArg (fun s => s.logs.length) h
  simp [connectA, connectingA] at this

/-- C6 (amended): `connect()` is a no-op whenever the `isConnected`
flag is set.  In the worklet variant the flag is raised at the top of
`connect()`, so this covers both the Connecting and Connected phases; in
the script-processor variant the flag only becomes true on `onopen`, so
only the Connected state is guarded and a `connect()` issued during
Connecting proceeds again. -/
theorem claim_C6_amended :
    (∀ (s : StateA) (o : ConnectOutcome), s.isConnected = true → connectA s o = s) ∧
    (∀ (s : StateB) (o : ConnectOutcome), s.isConnected = true → connectB s o = s) := by
  constructor
  · intro s o h
    simp [connectA, h]
  · intro s o h
    simp [connectB, h]

/-- Witness for the amended C6 guard: a connected script-processor state
(after `handleOpenA`) and the connected worklet state are left untouched
by a second `connect()`. -/
theorem claim_C6_witness :
    ((handleOpenA (connectA (disconnectA connectingA) ConnectOutcome.success)).isConnected = true ∧
      connectA (handleOpenA (connectA (disconnectA connectingA) ConnectOutcome.success))
          ConnectOutcome.success
        = handleOpenA (connectA (disconnectA connectingA) ConnectOutcome.success)) ∧
    (connectedB.isConnected = true ∧
      connectB connectedB ConnectOutcome.success = connectedB) :=
  ⟨⟨rfl, claim_C6_amended.1 _ ConnectOutcome.success rfl⟩,
   ⟨rfl, claim_C6_amended.2 connectedB ConnectOutcome.success rfl⟩⟩

/-- One entry of `message.toolCall.functionCalls`: `{id, name, args}`,
with `query` the single argument the search tool reads
(`fc.args.query`). -/
structure FunctionCall where
  id : String
  name : String
  query : String
  deriving DecidableEq

/-- The value bound to `result` when a tool call is answered: the mock
financial profile, a synthesized search text, or the initial empty
object `{}` that survives when no handler name matches. -/
inductive ToolResultVal
  | profileVal
  | searchVal (text : String)
  | emptyVal
  deriving DecidableEq

/-- The payload of `session.sendToolResponse`:
`functionResponses: { id: fc.id, name: fc.name, response: { result } }`. -/
structure ToolResponse where
  id : String
  name : String
  result : ToolResultVal
  deriving DecidableEq

/-- Function `mockGoogleSearch`: after the simulated delay, synthesizes a text
answer from the query (the source branches on query keywords to pick
between three canned texts; the particular text never matters to the
dispatch contract, so the synthesis is modelled as one template). -/
def mockGoogleSearch (query : String) : String :=
  "Search results for " ++ query

/-- The per-call dispatch of `handleMessage`
(`src/services/liveService.ts:270-284`): `result` starts as the empty
object, is replaced by the mock profile for `get_financial_profile` and
by the awaited search text for `google_search`, and stays empty for any
other name. -/
def dispatchResult (fc : FunctionCall) : ToolResultVal :=
  if fc.name = "get_financial_profile" then ToolResultVal.profileVal
  else if fc.name = "google_search" then
    ToolResultVal.searchVal (mockGoogleSearch fc.query)
  else ToolResultVal.emptyVal

/-- The tool-call batch loop of `handleMessage` when no state change
interleaves (the connected flag holds one value throughout): the entry
guard `if (!this.isConnected) return` drops the whole batch when not
connected; otherwise each call result is computed and sent — the send
itself re-checks `isConnected` (C1 covers the interleaved case). -/
def handleToolCalls (isConnected : Bool) (calls : List FunctionCall) :
    List ToolResponse :=
  if !isConnected then []
  else
    calls.filterMap fun fc =>
      if isConnected then some ⟨fc.id, fc.name, dispatchResult fc⟩ else none

/-- C7: while the session stays Connected, an inbound batch of ToolCalls
produces exactly one ToolResult per call, positionally paired with its
originating call, carrying the id and name of that call unchanged; a call
whose name matches neither `get_financial_profile` nor `google_search`
is answered with the empty result object instead of failing the
batch. -/
theorem claim_C7_tool_correlation (calls : List FunctionCall) :
    (handleToolCalls true calls).length = calls.length ∧
    ∀ p ∈ (handleToolCalls true calls).zip calls,
      p.1.id = p.2.id ∧ p.1.name = p.2.name ∧
      (p.2.name ≠ "get_financial_profile" → p.2.name ≠ "google_search" →
        p.1.result = ToolResultVal.emptyVal) := by
  have hmap : handleToolCalls true calls
      = calls.map fun fc => ⟨fc.id, fc.name, dispatchResult fc⟩ := by
    unfold handleToolCalls
    induction calls with
    | nil => rfl
    | cons c cs ih =>
      rw [List.filterMap_cons, List.map_cons]
      simp only [Bool.not_true, Bool.false_eq_true, if_false, if_true] at ih ⊢
      rw [ih]
  rw [hmap]
  clear hmap
  refine ⟨List.length_map _ _, ?_⟩
  induction calls with
  | nil =>
    intro p hp
    simp at hp
  | cons c cs ih =>
    intro p hp
    rw [List.map_cons, List.zip_cons_cons] at hp
    rcases List.mem_cons.mp hp with rfl | hp2
    · refine ⟨rfl, rfl, ?_⟩
      intro h1 h2
      simp only [dispatchResult, if_neg h1, if_neg h2]
    · exact ih p hp2

/-- A concrete inbound batch: a profile call, a search call and an
unknown-name call. -/
def sampleBatch : List FunctionCall :=
  [{ id := "c1", name := "get_financial_profile", query := "" },
   { id := "c2", name := "google_search", query := "rates" },
   { id := "c3", name := "mystery_tool", query := "" }]

/-- Witness for C7 on the concrete three-call batch `sampleBatch`. -/
theorem claim_C7_witness :
    (handleToolCalls true sampleBatch).length = sampleBatch.length ∧
    ∀ p ∈ (handleToolCalls true sampleBatch).zip sampleBatch,
      p.1.id = p.2.id ∧ p.1.name = p.2.name ∧
      (p.2.name ≠ "get_financial_profile" → p.2.name ≠ "google_search" →
        p.1.result = ToolResultVal.emptyVal) :=
  claim_C7_tool_correlation sampleBatch

/-!
C1: the guard-flag race between `disconnect()` and a pending
asynchronous tool handler.  The cooperative event sources of the session
are interleaved as an event list: a handler starting (handleMessage
begins awaiting `mockGoogleSearch`), a handler resolving (the
continuation re-checks `isConnected` before `sendToolResponse` —
`liveService.ts:287-297`, worklet variant line 441), `disconnect()`
(which flips `isConnected` to false before anything else), and `onopen`
(which raises it).
-/

/-- One asynchronous event interleaved on the session. -/
inductive SessionEv
  | callStart (id : String)
  | callDone (id : String)
  | disconnectCall
  | openCall
  deriving DecidableEq

/-- The tool-dispatch-relevant projection of the session state:
the guard flag, the set of in-flight handlers, and the ids answered via
`sendToolResponse` so far. -/
structure DispatchState where
  connected : Bool
  pending : List String
  sent : List String
  deriving DecidableEq

/-- Small-step semantics of the race: a handler only starts while
connected (the entry guard of `handleMessage`); on resolution the
continuation delivers the result only if `isConnected` is (still) true
at that moment; `disconnect()` clears the flag; `onopen` sets it. -/
def dispatchStep (s : DispatchState) : SessionEv → DispatchState
  | .callStart i =>
    if s.connected then { s with pending := s.pending ++ [i] } else s
  | .callDone i =>
    if s.pending.contains i then
      { s with
        pending := s.pending.erase i
        sent := if s.connected then s.sent ++ [i] else s.sent }
    else s
  | .disconnectCall => { s with connected := false }
  | .openCall => { s with connected := true }

/-- Running a whole interleaving. -/
def dispatchRun (s : DispatchState) (evs : List SessionEv) : DispatchState :=
  evs.foldl dispatchStep s

lemma dispatchRun_disconnected (evs : List SessionEv) :
    ∀ s : DispatchState, s.connected = false →
    (∀ e ∈ evs, e ≠ SessionEv.openCall) →
    (dispatchRun s evs).sent = s.sent ∧
    (dispatchRun s evs).connected = false := by
  induction evs with
  | nil =>
    intro s hc _
    exact ⟨rfl, hc⟩
  | cons e evs ih =>
    intro s hc hno
    have hstep : (dispatchStep s e).sent = s.sent ∧
        (dispatchStep s e).connected = false := by
      cases e with
      | callStart i => simp [dispatchStep, hc]
      | callDone i =>
        by_cases hp : i ∈ s.pending
        · simp [dispatchStep, hp, hc]
        · simp [dispatchStep, hp, hc]
      | disconnectCall => simp [dispatchStep]
      | openCall =>
        exact absurd rfl (hno SessionEv.openCall (List.mem_cons_self _ _))
    have hrun : dispatchRun s (e :: evs) = dispatchRun (dispatchStep s e) evs := rfl
    rw [hrun]
    obtain ⟨h1, h2⟩ := ih (dispatchStep s e) hstep.2
      (fun e2 he2 => hno e2 (List.mem_cons_of_mem _ he2))
    exact ⟨h1.trans hstep.1, h2⟩

/-- C1: once `disconnect()` has run, as long as no new session is opened,
no ToolResult is ever delivered — in particular every handler that was
still pending when `disconnect()` was invoked resolves without sending:
the continuation re-checks the cleared `isConnected` flag and discards
the stale result. -/
theorem claim_C1_stale_result_suppressed (s : DispatchState)
    (evs : List SessionEv) (hno : ∀ e ∈ evs, e ≠ SessionEv.openCall) :
    (dispatchRun (dispatchStep s SessionEv.disconnectCall) evs).sent
      = s.sent := by
  have hc : (dispatchStep s SessionEv.disconnectCall).connected = false := rfl
  have hs : (dispatchStep s SessionEv.disconnectCall).sent = s.sent := rfl
  obtain ⟨h1, _⟩ :=
    dispatchRun_disconnected evs (dispatchStep s SessionEv.disconnectCall) hc hno
  exact h1.trans hs

/-- Witness for C1: a handler for call "a" is pending when disconnect
arrives; its later resolution sends nothing. -/
theorem claim_C1_witness :
    (∀ e ∈ [SessionEv.callDone "a"], e ≠ SessionEv.openCall) ∧
    (dispatchRun
        (dispatchStep
          { connected := true, pending := ["a"], sent := [] }
          SessionEv.disconnectCall)
        [SessionEv.callDone "a"]).sent = [] :=
  ⟨by decide,
   claim_C1_stale_result_suppressed
     { connected := true, pending := ["a"], sent := [] }
     [SessionEv.callDone "a"] (by decide)⟩

/-!
C9: outbound send failures in the capture path.
-/

/-- Outcome of one `sendRealtimeInput` attempt: delivered, rejected
because the connection is closing, or failed for any other reason. -/
inductive SendOutcome
  | delivered
  | errClosing
  | errOther
  deriving DecidableEq

/-- The outbound send of `onaudioprocess` in the script-processor
variant (`src/services/liveService.ts:239-250`):
`sessionPromise?.then(session => { if (isConnected)
session.sendRealtimeInput(...) }).catch(err => { /* ignore */ })`.
Every rejection — closing or otherwise — lands in the `.catch`, which
ignores it: nothing is logged, nothing is torn down, and no exception
escapes (the function always returns `Except.ok`). -/
def sendChunkA (s : StateA) (o : SendOutcome) : Except SendOutcome StateA :=
  if s.sessionPromise && s.isConnected then
    match o with
    | .delivered => Except.ok { s with sentChunks := s.sentChunks + 1 }
    | .errClosing => Except.ok s
    | .errOther => Except.ok s
  else Except.ok s

/-- Method `LiveService.sendAudioChunk` of the worklet variant (`src/App.tsx`,
worklet document, lines 397-423), send portion: inside the try/catch, a
failure whose message mentions `closed`/`CLOSING` triggers
`this.disconnect()` (full teardown including the terminal log entry);
any other failure is `console.warn`ed and capture continues; no
exception escapes the catch. -/
def sendAudioChunkB (s : StateB) (o : SendOutcome) : Except SendOutcome StateB :=
  if !s.isConnected || !s.currentSession then Except.ok s
  else
    match o with
    | .delivered => Except.ok { s with sentChunks := s.sentChunks + 1 }
    | .errClosing => Except.ok (disconnectB s)
    | .errOther => Except.ok { s with warnCount := s.warnCount + 1 }

/-- A state of the script-processor variant as it stands right after
`onopen` (connected, streaming, no log backlog). -/
def connectedA : StateA :=
  { inputCtx := true
    outputCtx := true
    mediaStream := true
    processor := true
    source := true
    nextStartTime := 0
    isConnected := true
    sessionPromise := true
    logs := []
    statusEvents := [true]
    sentChunks := 0 }

/-- C9 counterexample: the claimed failure handling does not match
either variant.  In the script-processor variant a non-closing send
failure leaves the state entirely unchanged — no warning is logged
anywhere (the claim says a warning is logged and capture continues).
In the worklet variant a closing rejection is not a silent drop: it
invokes `disconnect()`, which emits a `Disconnected.` log entry and
tears the session down (the claim says no log entry is emitted). -/
theorem claim_C9_counterexample :
    (sendChunkA connectedA SendOutcome.errOther = Except.ok connectedA ∧
      connectedA.logs = [] ∧ connectedA.isConnected = true) ∧
    (sendAudioChunkB connectedB SendOutcome.errClosing
        = Except.ok (disconnectB connectedB) ∧
      (disconnectB connectedB).logs.count LogMsg.disconnected
        = connectedB.logs.count LogMsg.disconnected + 1 ∧
      (disconnectB connectedB).isConnected = false) := by
  refine ⟨⟨rfl, rfl, rfl⟩, rfl, ?_, rfl⟩
  decide

/-- C9 (amended): no send failure ever escapes the capture path — both
variants return normally for every outcome.  In the script-processor
variant every send failure, closing or otherwise, is swallowed silently:
no log entry, no warning, no teardown.  In the worklet variant (while
connected with a live session) a non-closing failure increments the
console-warning count and capture continues, while a closing rejection
runs `disconnect()` — a full teardown with its terminal log entry. -/
theorem claim_C9_amended :
    (∀ (s : StateA) (o : SendOutcome), ∃ s2 : StateA,
      sendChunkA s o = Except.ok s2 ∧
      s2.logs = s.logs ∧ s2.isConnected = s.isConnected) ∧
    (∀ (s : StateB) (o : SendOutcome), ∃ s2 : StateB,
      sendAudioChunkB s o = Except.ok s2 ∧
      (s.isConnected = true → s.currentSession = true →
        (o = SendOutcome.errOther →
          s2.warnCount = s.warnCount + 1 ∧ s2.logs = s.logs ∧
          s2.isConnected = true) ∧
        (o = SendOutcome.errClosing → s2 = disconnectB s))) := by
  constructor
  · intro s o
    unfold sendChunkA
    by_cases hg : s.sessionPromise && s.isConnected
    · cases o with
      | delivered =>
        exact ⟨{ s with sentChunks := s.sentChunks + 1 },
          by rw [if_pos hg], rfl, rfl⟩
      | errClosing => exact ⟨s, by rw [if_pos hg], rfl, rfl⟩
      | errOther => exact ⟨s, by rw [if_pos hg], rfl, rfl⟩
    · exact ⟨s, by rw [if_neg hg], rfl, rfl⟩
  · intro s o
    unfold sendAudioChunkB
    by_cases hg : !s.isConnected || !s.currentSession
    · refine ⟨s, by rw [if_pos hg], ?_⟩
      intro hc hs
      rw [hc, hs] at hg
      simp at hg
    · cases o with
      | delivered =>
        refine ⟨_, by rw [if_neg hg], ?_⟩
        intro _ _
        constructor
        · intro ho
          cases ho
        · intro ho
          cases ho
      | errClosing =>
        refine ⟨disconnectB s, by rw [if_neg hg], ?_⟩
        intro _ _
        constructor
        · intro ho
          cases ho
        · intro _
          rfl
      | errOther =>
        refine ⟨_, by rw [if_neg hg], ?_⟩
        intro hc _
        constructor
        · intro _
          exact ⟨rfl, rfl, hc⟩
        · intro ho
          cases ho

/-- Witness for the amended C9 at the concrete connected states and a
non-closing failure / closing rejection respectively. -/
theorem claim_C9_witness :
    (∃ s2 : StateA, sendChunkA connectedA SendOutcome.errOther = Except.ok s2 ∧
      s2.logs = connectedA.logs ∧ s2.isConnected = connectedA.isConnected) ∧
    (∃ s2 : StateB,
      sendAudioChunkB connectedB SendOutcome.errClosing = Except.ok s2 ∧
      (connectedB.isConnected = true → connectedB.currentSession = true →
        (SendOutcome.errClosing = SendOutcome.errOther →
          s2.warnCount = connectedB.warnCount + 1 ∧ s2.logs = connectedB.logs ∧
          s2.isConnected = true) ∧
        (SendOutcome.errClosing = SendOutcome.errClosing →
          s2 = disconnectB connectedB))) :=
  ⟨claim_C9_amended.1 connectedA SendOutcome.errOther,
   claim_C9_amended.2 connectedB SendOutcome.errClosing⟩

/-!
C8: the loudness value delivered to the presentation layer.
Script-processor variant (`liveService.ts:227-233`): RMS over every
sample of the block, then `onVolume(rms * 100)`.  Worklet variant
(`sendAudioChunk`): the sum strides over every 4th sample, divides by
`length / 4`, then likewise `onVolume(rms * 100)`.
-/

/-- The samples visited by `for (i = 0; i < n; i += 4)`: every 4th
element. -/
def strideFour {α : Type} : List α → List α
  | [] => []
  | x :: rest => x :: strideFour (rest.drop 3)
termination_by l => l.length
decreasing_by
  simp only [List.length_drop, List.length_cons]
  omega

/-- The volume delivered by the script-processor variant:
`Math.sqrt(sum of squares / length) * 100`. -/
noncomputable def rmsVolumeA (samples : List ℝ) : ℝ :=
  Real.sqrt ((samples.map fun x => x * x).sum / samples.length) * 100

/-- The volume delivered by the worklet variant: squares summed over a
stride-4 subset, divided by `length / 4`, square root, times 100. -/
noncomputable def rmsVolumeB (samples : List ℝ) : ℝ :=
  Real.sqrt (((strideFour samples).map fun x => x * x).sum
    / ((samples.length : ℝ) / 4)) * 100

lemma strideFour_subset {α : Type} :
    ∀ (xs : List α) (y : α), y ∈ strideFour xs → y ∈ xs := by
  intro xs
  induction xs using strideFour.induct with
  | case1 =>
    intro y hy
    simp [strideFour] at hy
  | case2 x rest ih =>
    intro y hy
    rw [strideFour] at hy
    rcases List.mem_cons.mp hy with rfl | hy2
    · exact List.mem_cons_self _ _
    · exact List.mem_cons_of_mem _ (List.mem_of_mem_drop (ih y hy2))

lemma strideFour_length {α : Type} :
    ∀ xs : List α, (strideFour xs).length = (xs.length + 3) / 4 := by
  intro xs
  induction xs using strideFour.induct with
  | case1 =>
    rw [strideFour]
    simp
  | case2 x rest ih =>
    rw [strideFour]
    simp only [List.length_cons, ih, List.length_drop]
    omega

lemma sum_sq_le {l : List ℝ} (h : ∀ x ∈ l, |x| ≤ 1) :
    (l.map fun x => x * x).sum ≤ l.length := by
  have h2 : ∀ y ∈ (l.map fun x => x * x), y ≤ 1 := by
    intro y hy
    rcases List.mem_map.mp hy with ⟨x, hx, rfl⟩
    have := abs_le.mp (h x hx)
    nlinarith [this.1, this.2]
  have := List.sum_le_card_nsmul _ 1 h2
  simpa [List.length_map, nsmul_eq_mul] using this

/-- C8 counterexample: the delivered loudness is not a scalar in [0,1].
For a full-scale block (4096 samples all equal to 1.0, every sample in
[-1,1]) the script-processor variant delivers `sqrt(1) * 100 = 100`,
far outside [0,1] — the code multiplies the RMS by 100 and the
Visualizer expects a 0–100 value. -/
theorem claim_C8_counterexample :
    rmsVolumeA (List.replicate 4096 1) = 100 ∧
    ¬ (rmsVolumeA (List.replicate 4096 1) ≤ 1) := by
  have h : rmsVolumeA (List.replicate 4096 1) = 100 := by
    unfold rmsVolumeA
    rw [List.map_replicate]
    simp only [mul_one, List.sum_replicate, List.length_replicate, nsmul_eq_mul]
    norm_num
  refine ⟨h, ?_⟩
  rw [h]
  norm_num

/-- C8 (amended): for every captured block whose samples lie in
[-1, 1], the loudness value delivered to the presentation layer
(RMS times 100) is a scalar in [0, 100] — in both the full-scan
script-processor variant (any non-empty block) and the stride-sampled
worklet variant (blocks of exactly 4096 samples, as every flushed
buffer is). -/
theorem claim_C8_amended :
    (∀ samples : List ℝ, samples ≠ [] → (∀ x ∈ samples, |x| ≤ 1) →
      0 ≤ rmsVolumeA samples ∧ rmsVolumeA samples ≤ 100) ∧
    (∀ samples : List ℝ, samples.length = 4096 → (∀ x ∈ samples, |x| ≤ 1) →
      0 ≤ rmsVolumeB samples ∧ rmsVolumeB samples ≤ 100) := by
  constructor
  · intro samples hne hb
    constructor
    · unfold rmsVolumeA
      positivity
    · unfold rmsVolumeA
      have hn : 0 < (samples.length : ℝ) := by
        have := List.length_pos.mpr hne
        exact_mod_cast this
      have harg : (samples.map fun x => x * x).sum / samples.length ≤ 1 := by
        rw [div_le_one hn]
        exact sum_sq_le hb
      have hs := Real.sqrt_le_one.mpr harg
      nlinarith [hs]
  · intro samples hlen hb
    constructor
    · unfold rmsVolumeB
      positivity
    · unfold rmsVolumeB
      have hcount : (strideFour samples).length = 1024 := by
        rw [strideFour_length, hlen]
      have hsum : ((strideFour samples).map fun x => x * x).sum ≤ 1024 := by
        have := sum_sq_le (l := strideFour samples)
          (fun x hx => hb x (strideFour_subset samples x hx))
        rw [hcount] at this
        exact_mod_cast this
      have harg : ((strideFour samples).map fun x => x * x).sum
          / ((samples.length : ℝ) / 4) ≤ 1 := by
        rw [hlen]
        norm_num
        linarith
      have hs := Real.sqrt_le_one.mpr harg
      nlinarith [hs]

/-- Witness for the amended C8 at the concrete full-scale 4096-sample
block. -/
theorem claim_C8_witness :
    ((List.replicate 4096 (1 : ℝ)) ≠ [] ∧
      0 ≤ rmsVolumeA (List.replicate 4096 1) ∧
      rmsVolumeA (List.replicate 4096 1) ≤ 100) ∧
    ((List.replicate 4096 (1 : ℝ)).length = 4096 ∧
      0 ≤ rmsVolumeB (List.replicate 4096 1) ∧
      rmsVolumeB (List.replicate 4096 1) ≤ 100) := by
  have hne : (List.replicate 4096 (1 : ℝ)) ≠ [] := by
    intro h
    have h2 := congrArg List.length h
    rw [List.length_replicate] at h2
    simp at h2
  have hlen : (List.replicate 4096 (1 : ℝ)).length = 4096 :=
    List.length_replicate _ _
  have hb : ∀ x ∈ List.replicate 4096 (1 : ℝ), |x| ≤ 1 := by
    intro x hx
    rw [List.eq_of_mem_replicate hx]
    norm_num
  exact ⟨⟨hne, claim_C8_amended.1 _ hne hb⟩,
         ⟨hlen, claim_C8_amended.2 _ hlen hb⟩⟩

end FinancialCoach

